import Mathlib

/-!
Verification of the rgx 2D shape triangulator (`src/kit/shape2d.rs`).

Shallow embedding of the shape data model, `Shape::triangulate` and `Batch`
from `src/kit/shape2d.rs`.  `f32` coordinates are modelled as exact rationals;
the transcendental operations the source uses (`cos`, `sin`, `sqrt` and the
constant `f32::consts::PI`) are abstracted into an operation table `FOps`,
over which all structural theorems are universally quantified.  The panicking
`unimplemented!()` arms of the source are modelled as `Option.none`.
-/

namespace Rgx

/-- Operation table standing in for the `f32` transcendental functions
(`f32::cos`, `f32::sin`, `cgmath`'s `sqrt`-based `normalize`) and the
constant `f32::consts::PI` used by the source. -/
structure FOps where
  pif : ℚ
  cosf : ℚ → ℚ
  sinf : ℚ → ℚ
  sqrtf : ℚ → ℚ

/-- Rust `cgmath::Point2<f32>` (modelled from the spec §3: `(x, y)` floating-point
coordinate; the cgmath crate is outside `src/`). -/
structure Point2 where
  x : ℚ
  y : ℚ
deriving DecidableEq

/-- Rust `cgmath::Vector2<f32>` (modelled from the spec §3; outside `src/`). -/
structure Vector2 where
  x : ℚ
  y : ℚ
deriving DecidableEq

/-- Rust `cgmath::Vector3<f32>` (modelled from the spec §3; outside `src/`). -/
structure Vector3 where
  x : ℚ
  y : ℚ
  z : ℚ
deriving DecidableEq

instance : Sub Vector2 := ⟨fun a b => ⟨a.x - b.x, a.y - b.y⟩⟩

/-- Rust `cgmath`'s `Vector2::normalize`: the vector divided by its magnitude
`sqrt (x*x + y*y)` (modelled from the spec §4.1: `v = normalize(p2-p1)`). -/
def Vector2.normalize (ops : FOps) (v : Vector2) : Vector2 :=
  let m := ops.sqrtf (v.x * v.x + v.y * v.y)
  ⟨v.x / m, v.y / m⟩

/-- Rust `core::Rgba` (modelled from the spec §3: an RGBA color with float
channels; `crate::core` is not under `src/`). -/
structure Rgba where
  r : ℚ
  g : ℚ
  b : ℚ
  a : ℚ
deriving DecidableEq

/-- Modelled from the spec: `Stroke::NONE`'s "transparent color" — all four
channels zero. -/
def Rgba.TRANSPARENT : Rgba := ⟨0, 0, 0, 0⟩

/-- Modelled from the spec §8: the "full white" fill color of the concrete
circle scenario. -/
def Rgba.WHITE : Rgba := ⟨1, 1, 1, 1⟩

/-- Modelled from the spec §8: the "red" color of the concrete line
scenario. -/
def Rgba.RED : Rgba := ⟨1, 0, 0, 1⟩

/-- Rust `kit::Rgba8` (modelled from the spec §3: "color: RGBA as 4×u8";
`crate::kit`'s color types are not under `src/`). -/
structure Rgba8 where
  r : ℕ
  g : ℕ
  b : ℕ
  a : ℕ
deriving DecidableEq

/-- Modelled from the spec: the `Rgba → Rgba8` conversion used by the
source's `color.into()` — each unit-interval float channel scaled to a byte,
so full intensity `1.0` maps to `255` ("full white" ↦ four `255` bytes). -/
def Rgba8.ofRgba (c : Rgba) : Rgba8 :=
  ⟨(⌊c.r * 255⌋).toNat, (⌊c.g * 255⌋).toNat,
   (⌊c.b * 255⌋).toNat, (⌊c.a * 255⌋).toNat⟩

/-- Rust `kit::ZDepth` (modelled from the spec §3: single float layering key;
not under `src/`, destructured by the source as `ZDepth(z)`). -/
structure ZDepth where
  z : ℚ
deriving DecidableEq

/-- Rust `Stroke` from `shape2d.rs`. -/
structure Stroke where
  width : ℚ
  color : Rgba
deriving DecidableEq

/-- Rust `Stroke::NONE` from `shape2d.rs`: width 0, transparent color. -/
def Stroke.NONE : Stroke := ⟨0, Rgba.TRANSPARENT⟩

/-- Rust `Stroke::new` from `shape2d.rs`. -/
def Stroke.new (width : ℚ) (color : Rgba) : Stroke := ⟨width, color⟩

/-- Rust `Fill` from `shape2d.rs`. -/
inductive Fill where
  | Empty : Fill
  | Solid : Rgba → Fill
  | Gradient : Rgba → Rgba → Fill
deriving DecidableEq

/-- Rust `Rotation` from `shape2d.rs`. -/
structure Rotation where
  angle : ℚ
  center : Point2
deriving DecidableEq

/-- Rust `Rotation::ZERO` from `shape2d.rs`. -/
def Rotation.ZERO : Rotation := ⟨0, ⟨0, 0⟩⟩

/-- Rust `Vertex` from `shape2d.rs`. -/
structure Vertex where
  position : Vector3
  angle : ℚ
  center : Vector2
  color : Rgba8
deriving DecidableEq

/-- Rust `Vertex::new` from `shape2d.rs`. -/
def Vertex.new (x y z angle : ℚ) (center : Point2) (color : Rgba8) : Vertex :=
  ⟨⟨x, y, z⟩, angle, ⟨center.x, center.y⟩, color⟩

/-- The free function `vertex` from `shape2d.rs`. -/
def vertex (x y z angle : ℚ) (center : Point2) (color : Rgba8) : Vertex :=
  Vertex.new x y z angle center color

/-- Rust `Line` from `shape2d.rs`. -/
structure Line where
  p1 : Vector2
  p2 : Vector2
deriving DecidableEq

/-- Rust `Line::new` from `shape2d.rs`. -/
def Line.new (x1 y1 x2 y2 : ℚ) : Line := ⟨⟨x1, y1⟩, ⟨x2, y2⟩⟩

/-- Rust `rect::Rect<f32>` (its definition is not under `src/`; modelled from the
spec §3: axis-aligned box `x1,y1,x2,y2`, matching `kit::Rect` in
`src/kit/mod.rs`). -/
structure Rect where
  x1 : ℚ
  y1 : ℚ
  x2 : ℚ
  y2 : ℚ
deriving DecidableEq

/-- Rust `Shape` from `shape2d.rs`.  The `u32` side count is modelled as `ℕ`. -/
inductive Shape where
  | Line : Line → ZDepth → Rotation → Stroke → Shape
  | Rectangle : Rect → ZDepth → Rotation → Stroke → Fill → Shape
  | Circle : Point2 → ZDepth → ℚ → ℕ → Stroke → Fill → Shape
deriving DecidableEq

/-- Rust `Shape::circle` from `shape2d.rs`: `sides + 1` boundary points at angles
`i · 2π/sides` for `i = 0..=sides`. -/
def Shape.circle (ops : FOps) (position : Point2) (radius : ℚ) (sides : ℕ) :
    List Point2 :=
  (List.range (sides + 1)).map fun (i : ℕ) =>
    let angle : ℚ := (i : ℚ) * ((2 * ops.pif) / (sides : ℚ))
    ⟨position.x + radius * ops.cosf angle, position.y + radius * ops.sinf angle⟩

/-- Rust `Shape::triangulate` from `shape2d.rs`.  The `unimplemented!()` panic on
`Fill::Gradient` is modelled as `none`; all successful paths return `some`. -/
def Shape.triangulate (ops : FOps) : Shape → Option (List Vertex)
  | Shape.Line l ⟨z⟩ ⟨angle, center⟩ ⟨width, color⟩ =>
    let v := Vector2.normalize ops (l.p2 - l.p1)
    let wx := width / 2 * v.y
    let wy := width / 2 * v.x
    let rgba8 := Rgba8.ofRgba color
    some
      [vertex (l.p1.x - wx) (l.p1.y + wy) z angle center rgba8,
       vertex (l.p1.x + wx) (l.p1.y - wy) z angle center rgba8,
       vertex (l.p2.x - wx) (l.p2.y + wy) z angle center rgba8,
       vertex (l.p2.x - wx) (l.p2.y + wy) z angle center rgba8,
       vertex (l.p1.x + wx) (l.p1.y - wy) z angle center rgba8,
       vertex (l.p2.x + wx) (l.p2.y - wy) z angle center rgba8]
  | Shape.Rectangle r ⟨z⟩ ⟨angle, center⟩ stroke fill =>
    let width := stroke.width
    let inner : Rect := ⟨r.x1 + width, r.y1 + width, r.x2 - width, r.y2 - width⟩
    let verts : List Vertex :=
      if stroke ≠ Stroke.NONE then
        let rgba8 := Rgba8.ofRgba stroke.color
        let outer := r
        [ -- Bottom
         vertex outer.x1 outer.y1 z angle center rgba8,
         vertex outer.x2 outer.y1 z angle center rgba8,
         vertex inner.x1 inner.y1 z angle center rgba8,
         vertex inner.x1 inner.y1 z angle center rgba8,
         vertex outer.x2 outer.y1 z angle center rgba8,
         vertex inner.x2 inner.y1 z angle center rgba8,
         -- Left
         vertex outer.x1 outer.y1 z angle center rgba8,
         vertex inner.x1 inner.y1 z angle center rgba8,
         vertex outer.x1 outer.y2 z angle center rgba8,
         vertex outer.x1 outer.y2 z angle center rgba8,
         vertex inner.x1 inner.y1 z angle center rgba8,
         vertex inner.x1 inner.y2 z angle center rgba8,
         -- Right
         vertex inner.x2 inner.y1 z angle center rgba8,
         vertex outer.x2 outer.y1 z angle center rgba8,
         vertex outer.x2 outer.y2 z angle center rgba8,
         vertex inner.x2 inner.y1 z angle center rgba8,
         vertex inner.x2 inner.y2 z angle center rgba8,
         vertex outer.x2 outer.y2 z angle center rgba8,
         -- Top
         vertex outer.x1 outer.y2 z angle center rgba8,
         vertex outer.x2 outer.y2 z angle center rgba8,
         vertex inner.x1 inner.y2 z angle center rgba8,
         vertex inner.x1 inner.y2 z angle center rgba8,
         vertex outer.x2 outer.y2 z angle center rgba8,
         vertex inner.x2 inner.y2 z angle center rgba8]
      else []
    match fill with
    | Fill.Solid color =>
      let rgba8 := Rgba8.ofRgba color
      some (verts ++
        [vertex inner.x1 inner.y1 z angle center rgba8,
         vertex inner.x2 inner.y1 z angle center rgba8,
         vertex inner.x2 inner.y2 z angle center rgba8,
         vertex inner.x1 inner.y1 z angle center rgba8,
         vertex inner.x1 inner.y2 z angle center rgba8,
         vertex inner.x2 inner.y2 z angle center rgba8])
    | Fill.Gradient _ _ => none
    | Fill.Empty => some verts
  | Shape.Circle position ⟨z⟩ radius sides stroke fill =>
    let inner := Shape.circle ops position (radius - stroke.width) sides
    let verts : List Vertex :=
      if stroke ≠ Stroke.NONE then
        -- If there is a stroke, the outer circle is larger.
        let outer := Shape.circle ops position radius sides
        let rgba8 := Rgba8.ofRgba stroke.color
        let n := inner.length - 1
        (List.range n).flatMap fun i =>
          let i0 := inner.getD i ⟨0, 0⟩
          let i1 := inner.getD (i + 1) ⟨0, 0⟩
          let o0 := outer.getD i ⟨0, 0⟩
          let o1 := outer.getD (i + 1) ⟨0, 0⟩
          [vertex i0.x i0.y z 0 ⟨0, 0⟩ rgba8,
           vertex o0.x o0.y z 0 ⟨0, 0⟩ rgba8,
           vertex o1.x o1.y z 0 ⟨0, 0⟩ rgba8,
           vertex i0.x i0.y z 0 ⟨0, 0⟩ rgba8,
           vertex o1.x o1.y z 0 ⟨0, 0⟩ rgba8,
           vertex i1.x i1.y z 0 ⟨0, 0⟩ rgba8]
      else []
    match fill with
    | Fill.Solid color =>
      let rgba8 := Rgba8.ofRgba color
      let center := Vertex.new position.x position.y z 0 ⟨0, 0⟩ rgba8
      let inner_verts : List Vertex :=
        inner.map fun p => Vertex.new p.x p.y z 0 ⟨0, 0⟩ rgba8
      some (verts ++
        ((List.range sides).flatMap fun i =>
          [center, inner_verts.getD i center, inner_verts.getD (i + 1) center]) ++
        [center, inner_verts.getLastD center, inner_verts.headD center])
    | Fill.Gradient _ _ => none
    | Fill.Empty => some verts

/-- Rust `Batch` from `shape2d.rs`. -/
structure Batch where
  items : List Shape
deriving DecidableEq

/-- Rust `Batch::new` from `shape2d.rs`. -/
def Batch.new : Batch := ⟨[]⟩

/-- Rust `Batch::add` from `shape2d.rs` (a push, returning the updated batch). -/
def Batch.add (b : Batch) (shape : Shape) : Batch := ⟨b.items ++ [shape]⟩

/-- Rust `Batch::singleton` from `shape2d.rs`: `new` followed by one `add`. -/
def Batch.singleton (shape : Shape) : Batch := Batch.new.add shape

/-- The accumulator loop of `Batch::vertices`: append each shape's
triangulation to `buf`, failing outright if any triangulation fails. -/
def Batch.verticesGo (ops : FOps) : List Shape → List Vertex → Option (List Vertex)
  | [], buf => some buf
  | shape :: rest, buf =>
    match Shape.triangulate ops shape with
    | none => none
    | some verts => Batch.verticesGo ops rest (buf ++ verts)

/-- Rust `Batch::vertices` from `shape2d.rs`. -/
def Batch.vertices (ops : FOps) (b : Batch) : Option (List Vertex) :=
  Batch.verticesGo ops b.items []

/-- Rust `Batch::is_empty` from `shape2d.rs`. -/
def Batch.is_empty (b : Batch) : Bool := b.items.isEmpty

/-- Rust `Batch::clear` from `shape2d.rs` (returns the emptied batch). -/
def Batch.clear (_b : Batch) : Batch := ⟨[]⟩

/-- Rust `Batch::buffer` from `shape2d.rs`; the external `create_buffer` upload
collaborator is modelled as the identity on the vertex sequence. -/
def Batch.buffer (ops : FOps) (b : Batch) : Option (List Vertex) :=
  Batch.vertices ops b

/-- Rust `Batch::finish` from `shape2d.rs`: delegates to `buffer`, consuming the
batch. -/
def Batch.finish (ops : FOps) (b : Batch) : Option (List Vertex) :=
  Batch.buffer ops b

/-- A concrete operation table used to instantiate witnesses: its only
constraint is that `sqrtf 100 = 10`, which is what the concrete line
scenario of spec §8 needs. -/
def exOps : FOps where
  pif := 0
  cosf := fun _ => 0
  sinf := fun _ => 0
  sqrtf := fun q => if q = 100 then 10 else 0

/-- Spec-side (§4.2): triangulate every shape in insertion order and
concatenate the results into one flat sequence, failing if any contained
shape's triangulation fails. -/
def triangulateAll (ops : FOps) : List Shape → Option (List Vertex)
  | [] => some []
  | shape :: rest => do
    let v ← Shape.triangulate ops shape
    let vs ← triangulateAll ops rest
    some (v ++ vs)

/-- Spec-side (§7): whether a fill is the unsupported `Fill::Gradient`. -/
def Fill.isGradient : Fill → Bool
  | Fill.Gradient _ _ => true
  | _ => false

/-- Spec-side (§7): a shape whose fill is the unsupported `Fill::Gradient`. -/
def Shape.hasGradientFill : Shape → Bool
  | Shape.Rectangle _ _ _ _ (Fill.Gradient _ _) => true
  | Shape.Circle _ _ _ _ _ (Fill.Gradient _ _) => true
  | _ => false

/-- Spec-side (§3/§4.1): the rotation parameters every output vertex of a
shape must be stamped with — the shape's own `Rotation` for lines and
rectangles, angle `0` about the origin for circles. -/
def Shape.rotStamp : Shape → ℚ × Point2
  | Shape.Line _ _ rot _ => (rot.angle, rot.center)
  | Shape.Rectangle _ _ rot _ _ => (rot.angle, rot.center)
  | Shape.Circle _ _ _ _ _ _ => (0, ⟨0, 0⟩)

/-- Spec-side (§4.1): the two triangles of the stroked line quad, offset
from the endpoints by the half-width component-swap offset
`(width/2)·(v.y, v.x)`, in the fixed order
`(p1-w, p1+w, p2-w, p2-w, p1+w, p2+w)`. -/
def lineQuadSpec (ops : FOps) (l : Line) (z : ℚ) (rot : Rotation)
    (width : ℚ) (color : Rgba) : List Vertex :=
  let v := Vector2.normalize ops (l.p2 - l.p1)
  let wx := width / 2 * v.y
  let wy := width / 2 * v.x
  let c8 := Rgba8.ofRgba color
  [vertex (l.p1.x - wx) (l.p1.y + wy) z rot.angle rot.center c8,
   vertex (l.p1.x + wx) (l.p1.y - wy) z rot.angle rot.center c8,
   vertex (l.p2.x - wx) (l.p2.y + wy) z rot.angle rot.center c8,
   vertex (l.p2.x - wx) (l.p2.y + wy) z rot.angle rot.center c8,
   vertex (l.p1.x + wx) (l.p1.y - wy) z rot.angle rot.center c8,
   vertex (l.p2.x + wx) (l.p2.y - wy) z rot.angle rot.center c8]

/-- Spec-side (§4.1/§8): the four trapezoidal stroke segments of a
rectangle frame — bottom, left, right, top, in that fixed order, each as two
triangles (6 vertices) built from shared corners of the declared outer rect
and the inner rect inset by the stroke width `w` on all four sides. -/
def rectFrameSpec (outer : Rect) (z : ℚ) (rot : Rotation) (w : ℚ) (sc : Rgba) :
    List Vertex :=
  let inner : Rect := ⟨outer.x1 + w, outer.y1 + w, outer.x2 - w, outer.y2 - w⟩
  let c8 := Rgba8.ofRgba sc
  [vertex outer.x1 outer.y1 z rot.angle rot.center c8,
   vertex outer.x2 outer.y1 z rot.angle rot.center c8,
   vertex inner.x1 inner.y1 z rot.angle rot.center c8,
   vertex inner.x1 inner.y1 z rot.angle rot.center c8,
   vertex outer.x2 outer.y1 z rot.angle rot.center c8,
   vertex inner.x2 inner.y1 z rot.angle rot.center c8,
   vertex outer.x1 outer.y1 z rot.angle rot.center c8,
   vertex inner.x1 inner.y1 z rot.angle rot.center c8,
   vertex outer.x1 outer.y2 z rot.angle rot.center c8,
   vertex outer.x1 outer.y2 z rot.angle rot.center c8,
   vertex inner.x1 inner.y1 z rot.angle rot.center c8,
   vertex inner.x1 inner.y2 z rot.angle rot.center c8,
   vertex inner.x2 inner.y1 z rot.angle rot.center c8,
   vertex outer.x2 outer.y1 z rot.angle rot.center c8,
   vertex outer.x2 outer.y2 z rot.angle rot.center c8,
   vertex inner.x2 inner.y1 z rot.angle rot.center c8,
   vertex inner.x2 inner.y2 z rot.angle rot.center c8,
   vertex outer.x2 outer.y2 z rot.angle rot.center c8,
   vertex outer.x1 outer.y2 z rot.angle rot.center c8,
   vertex outer.x2 outer.y2 z rot.angle rot.center c8,
   vertex inner.x1 inner.y2 z rot.angle rot.center c8,
   vertex inner.x1 inner.y2 z rot.angle rot.center c8,
   vertex outer.x2 outer.y2 z rot.angle rot.center c8,
   vertex inner.x2 inner.y2 z rot.angle rot.center c8]

/-- Spec-side (§4.1): the two fill triangles covering the inner rect of a
rectangle. -/
def rectFillSpec (inner : Rect) (z : ℚ) (rot : Rotation) (c : Rgba) :
    List Vertex :=
  let c8 := Rgba8.ofRgba c
  [vertex inner.x1 inner.y1 z rot.angle rot.center c8,
   vertex inner.x2 inner.y1 z rot.angle rot.center c8,
   vertex inner.x2 inner.y2 z rot.angle rot.center c8,
   vertex inner.x1 inner.y1 z rot.angle rot.center c8,
   vertex inner.x1 inner.y2 z rot.angle rot.center c8,
   vertex inner.x2 inner.y2 z rot.angle rot.center c8]

/-- Spec-side (§4.1/§8, amended per the closing triangle the source emits):
the circle fill fan over the `n+1` ring points `P₀ … Pₙ` — one triangle
`(center, Pᵢ, Pᵢ₊₁)` for each `i < n`, plus the closing triangle
`(center, Pₙ, P₀)` from the last boundary point back to the first. -/
def circleFanSpec (ops : FOps) (pos : Point2) (z radius : ℚ) (n : ℕ)
    (c : Rgba) : List Vertex :=
  let ring := Shape.circle ops pos radius n
  let ctr := vertex pos.x pos.y z 0 ⟨0, 0⟩ (Rgba8.ofRgba c)
  let P : ℕ → Vertex := fun i =>
    let p := ring.getD i ⟨0, 0⟩
    vertex p.x p.y z 0 ⟨0, 0⟩ (Rgba8.ofRgba c)
  ((List.range n).flatMap fun i => [ctr, P i, P (i + 1)]) ++ [ctr, P n, P 0]

/-- A concrete gradient-filled rectangle, used to instantiate witnesses. -/
def gradRect : Shape :=
  Shape.Rectangle ⟨0, 0, 1, 1⟩ ⟨0⟩ Rotation.ZERO Stroke.NONE
    (Fill.Gradient Rgba.RED Rgba.RED)


/-- A concrete shape (a rotated white-filled rectangle) and its
triangulation, used to instantiate witnesses. -/
def rotEx : Shape :=
  Shape.Rectangle ⟨0, 0, 5, 3⟩ ⟨7⟩ ⟨3, ⟨1, 2⟩⟩ Stroke.NONE (Fill.Solid Rgba.WHITE)

/-- The vertex sequence `rotEx` triangulates to. -/
def rotExVerts : List Vertex :=
  [vertex 0 0 7 3 ⟨1, 2⟩ (Rgba8.ofRgba Rgba.WHITE),
   vertex 5 0 7 3 ⟨1, 2⟩ (Rgba8.ofRgba Rgba.WHITE),
   vertex 5 3 7 3 ⟨1, 2⟩ (Rgba8.ofRgba Rgba.WHITE),
   vertex 0 0 7 3 ⟨1, 2⟩ (Rgba8.ofRgba Rgba.WHITE),
   vertex 0 3 7 3 ⟨1, 2⟩ (Rgba8.ofRgba Rgba.WHITE),
   vertex 5 3 7 3 ⟨1, 2⟩ (Rgba8.ofRgba Rgba.WHITE)]

/-! ## Helper lemmas -/

theorem flatMap_congr {α β : Type} {l : List α} {f g : α → List β}
    (h : ∀ a ∈ l, f a = g a) : l.flatMap f = l.flatMap g := by
  induction l with
  | nil => rfl
  | cons a l ih =>
    simp only [List.flatMap_cons]
    rw [h a (List.mem_cons_self a l), ih fun x hx => h x (List.mem_cons_of_mem a hx)]

theorem getD_cases {α : Type} (P : α → Prop) (l : List α) (i : ℕ) (d : α)
    (hl : ∀ x ∈ l, P x) (hd : P d) : P (l.getD i d) := by
  rcases Nat.lt_or_ge i l.length with h | h
  · rw [List.getD_eq_getElem l d h]
    exact hl _ (List.getElem_mem h)
  · rw [List.getD_eq_default l d h]
    exact hd

theorem headD_cases {α : Type} (P : α → Prop) (l : List α) (d : α)
    (hl : ∀ x ∈ l, P x) (hd : P d) : P (l.headD d) := by
  cases l with
  | nil => exact hd
  | cons a l => exact hl _ (List.mem_cons_self a l)

theorem getLastD_cases {α : Type} (P : α → Prop) (l : List α) (d : α)
    (hl : ∀ x ∈ l, P x) (hd : P d) : P (l.getLastD d) := by
  rw [List.getLastD_eq_getLast?]
  cases h : l.getLast? with
  | none => exact hd
  | some a =>
    have ha : a ∈ l.getLast? := h
    obtain ⟨hne, rfl⟩ := List.mem_getLast?_eq_getLast ha
    exact hl _ (List.getLast_mem hne)

theorem triangulate_rect_gradient (ops : FOps) (r : Rect) (zd : ZDepth)
    (rot : Rotation) (stroke : Stroke) (c1 c2 : Rgba) :
    Shape.triangulate ops (Shape.Rectangle r zd rot stroke (Fill.Gradient c1 c2)) = none := by
  obtain ⟨z⟩ := zd; obtain ⟨a, ctr⟩ := rot
  simp [Shape.triangulate]

theorem triangulate_circle_gradient (ops : FOps) (pos : Point2) (zd : ZDepth)
    (radius : ℚ) (sides : ℕ) (stroke : Stroke) (c1 c2 : Rgba) :
    Shape.triangulate ops (Shape.Circle pos zd radius sides stroke (Fill.Gradient c1 c2)) = none := by
  obtain ⟨z⟩ := zd
  simp [Shape.triangulate]

theorem triangulate_gradient_none (ops : FOps) (s : Shape)
    (h : Shape.hasGradientFill s = true) : Shape.triangulate ops s = none := by
  cases s with
  | Line l zd rot stroke => simp [Shape.hasGradientFill] at h
  | Rectangle r zd rot stroke fill =>
    cases fill with
    | Gradient c1 c2 => exact triangulate_rect_gradient ops r zd rot stroke c1 c2
    | Empty => simp [Shape.hasGradientFill] at h
    | Solid c => simp [Shape.hasGradientFill] at h
  | Circle pos zd radius sides stroke fill =>
    cases fill with
    | Gradient c1 c2 => exact triangulate_circle_gradient ops pos zd radius sides stroke c1 c2
    | Empty => simp [Shape.hasGradientFill] at h
    | Solid c => simp [Shape.hasGradientFill] at h

theorem verticesGo_none (ops : FOps) (s : Shape)
    (hs : Shape.triangulate ops s = none) :
    ∀ (l : List Shape) (buf : List Vertex), s ∈ l → Batch.verticesGo ops l buf = none := by
  intro l
  induction l with
  | nil => intro buf h; cases h
  | cons a l ih =>
    intro buf h
    rcases List.mem_cons.mp h with rfl | h
    · simp [Batch.verticesGo, hs]
    · cases ht : Shape.triangulate ops a with
      | none => simp [Batch.verticesGo, ht]
      | some verts => simpa [Batch.verticesGo, ht] using ih _ h

theorem verticesGo_eq (ops : FOps) (l : List Shape) :
    ∀ buf : List Vertex,
      Batch.verticesGo ops l buf = (triangulateAll ops l).map (buf ++ ·) := by
  induction l with
  | nil => intro buf; simp [Batch.verticesGo, triangulateAll]
  | cons a l ih =>
    intro buf
    cases ht : Shape.triangulate ops a with
    | none => simp [Batch.verticesGo, triangulateAll, ht]
    | some verts =>
      have hstep : Batch.verticesGo ops (a :: l) buf = Batch.verticesGo ops l (buf ++ verts) := by
        rw [Batch.verticesGo, ht]
      rw [hstep, ih]
      cases hr : triangulateAll ops l with
      | none => simp [triangulateAll, ht, hr]
      | some vs => simp [triangulateAll, ht, hr, List.append_assoc]

/-! ## Claim theorems -/

/-- Claim C7: `Batch::vertices` equals the concatenation, in insertion order,
of `triangulate` applied to each contained shape; the batch is read, not
mutated (`vertices` is a pure function of the batch value). -/
theorem batch_vertices_concat (ops : FOps) (b : Batch) :
    Batch.vertices ops b = triangulateAll ops b.items := by
  rw [Batch.vertices, verticesGo_eq]
  cases h : triangulateAll ops b.items <;> simp

/-- Claim C2: triangulating any Gradient-filled Rectangle or Circle fails, and
`vertices` (hence `finish`) on any batch containing such a shape fails for
the whole batch, producing no partial vertex buffer. -/
theorem gradient_fill_fails :
    (∀ (ops : FOps) (r : Rect) (zd : ZDepth) (rot : Rotation) (stroke : Stroke) (c1 c2 : Rgba),
      Shape.triangulate ops (Shape.Rectangle r zd rot stroke (Fill.Gradient c1 c2)) = none) ∧
    (∀ (ops : FOps) (pos : Point2) (zd : ZDepth) (radius : ℚ) (sides : ℕ)
        (stroke : Stroke) (c1 c2 : Rgba),
      Shape.triangulate ops (Shape.Circle pos zd radius sides stroke (Fill.Gradient c1 c2)) = none) ∧
    (∀ (ops : FOps) (b : Batch) (s : Shape),
      s ∈ b.items → Shape.hasGradientFill s = true →
      Batch.vertices ops b = none ∧ Batch.finish ops b = none) := by
  refine ⟨triangulate_rect_gradient, triangulate_circle_gradient, ?_⟩
  intro ops b s hmem hgrad
  have h := verticesGo_none ops s (triangulate_gradient_none ops s hgrad) b.items [] hmem
  exact ⟨h, h⟩

/-- Claim C2 witness: a batch holding one Gradient-filled rectangle fails. -/
theorem gradient_fill_fails_witness :
    gradRect ∈ (Batch.mk [gradRect]).items ∧
    Shape.hasGradientFill gradRect = true ∧
    (Batch.vertices exOps ⟨[gradRect]⟩ = none ∧ Batch.finish exOps ⟨[gradRect]⟩ = none) :=
  ⟨by simp, by decide,
    gradient_fill_fails.2.2 exOps ⟨[gradRect]⟩ gradRect (by simp) (by decide)⟩

/-- Claim C8: triangulation and batch aggregation are deterministic — equal
shapes triangulate to identical vertex sequences, and batches with equal
contents yield identical `vertices` results. -/
theorem triangulate_deterministic :
    (∀ (ops : FOps) (s t : Shape), s = t →
      Shape.triangulate ops s = Shape.triangulate ops t) ∧
    (∀ (ops : FOps) (b c : Batch), b.items = c.items →
      Batch.vertices ops b = Batch.vertices ops c) := by
  constructor
  · intro ops s t h; rw [h]
  · intro ops b c h
    cases b; cases c
    simp only at h
    rw [h]

/-- Claim C8 witness at a concrete shape and two equal-content batches. -/
theorem triangulate_deterministic_witness :
    (gradRect = gradRect ∧
      Shape.triangulate exOps gradRect = Shape.triangulate exOps gradRect) ∧
    ((Batch.mk [gradRect]).items = (Batch.singleton gradRect).items ∧
      Batch.vertices exOps ⟨[gradRect]⟩ = Batch.vertices exOps (Batch.singleton gradRect)) :=
  ⟨⟨rfl, triangulate_deterministic.1 exOps gradRect gradRect rfl⟩,
   ⟨by decide, triangulate_deterministic.2 exOps ⟨[gradRect]⟩ (Batch.singleton gradRect) (by decide)⟩⟩

/-- Claim C9: `Batch::new` is empty; after one `add` a batch is non-empty;
after `clear` it is empty again. -/
theorem batch_emptiness :
    Batch.new.is_empty = true ∧
    (∀ (b : Batch) (s : Shape), (b.add s).is_empty = false) ∧
    (∀ b : Batch, b.clear.is_empty = true) := by
  refine ⟨rfl, ?_, fun b => rfl⟩
  intro b s
  simp [Batch.add, Batch.is_empty]


/-- Claim C5: a Rectangle with `Stroke::NONE` and `Fill::Solid(c)` triangulates
to exactly 6 vertices, all at the inner (= outer, since the stroke width is
0) rect corners and all colored `c`; `Batch::vertices` on a batch holding
only that shape returns the same 6 vertices. -/
theorem rect_solid_no_stroke (ops : FOps) (r : Rect) (z : ℚ) (rot : Rotation) (c : Rgba) :
    Shape.triangulate ops (Shape.Rectangle r ⟨z⟩ rot Stroke.NONE (Fill.Solid c)) =
      some [vertex r.x1 r.y1 z rot.angle rot.center (Rgba8.ofRgba c),
            vertex r.x2 r.y1 z rot.angle rot.center (Rgba8.ofRgba c),
            vertex r.x2 r.y2 z rot.angle rot.center (Rgba8.ofRgba c),
            vertex r.x1 r.y1 z rot.angle rot.center (Rgba8.ofRgba c),
            vertex r.x1 r.y2 z rot.angle rot.center (Rgba8.ofRgba c),
            vertex r.x2 r.y2 z rot.angle rot.center (Rgba8.ofRgba c)] ∧
    Batch.vertices ops (Batch.singleton (Shape.Rectangle r ⟨z⟩ rot Stroke.NONE (Fill.Solid c))) =
      some [vertex r.x1 r.y1 z rot.angle rot.center (Rgba8.ofRgba c),
            vertex r.x2 r.y1 z rot.angle rot.center (Rgba8.ofRgba c),
            vertex r.x2 r.y2 z rot.angle rot.center (Rgba8.ofRgba c),
            vertex r.x1 r.y1 z rot.angle rot.center (Rgba8.ofRgba c),
            vertex r.x1 r.y2 z rot.angle rot.center (Rgba8.ofRgba c),
            vertex r.x2 r.y2 z rot.angle rot.center (Rgba8.ofRgba c)] := by
  obtain ⟨a, ctr⟩ := rot
  have h1 : Shape.triangulate ops (Shape.Rectangle r ⟨z⟩ ⟨a, ctr⟩ Stroke.NONE (Fill.Solid c)) =
      some [vertex r.x1 r.y1 z a ctr (Rgba8.ofRgba c),
            vertex r.x2 r.y1 z a ctr (Rgba8.ofRgba c),
            vertex r.x2 r.y2 z a ctr (Rgba8.ofRgba c),
            vertex r.x1 r.y1 z a ctr (Rgba8.ofRgba c),
            vertex r.x1 r.y2 z a ctr (Rgba8.ofRgba c),
            vertex r.x2 r.y2 z a ctr (Rgba8.ofRgba c)] := by
    simp [Shape.triangulate, Stroke.NONE]
  refine ⟨h1, ?_⟩
  simp [Batch.vertices, Batch.singleton, Batch.new, Batch.add, Batch.verticesGo, h1]

theorem Vector2.sub_def (a b : Vector2) : a - b = ⟨a.x - b.x, a.y - b.y⟩ := rfl

/-- Claim C3: a Line triangulates to exactly 6 vertices, the two triangles of
the quad offset by the component-swap half-width `(width/2)·(v.y, v.x)` with
`v = normalize(p2-p1)`, in the fixed order `(p1-w, p1+w, p2-w, p2-w, p1+w,
p2+w)`; the concrete line `(0,0)-(10,0)` of width 2 colored red spans a
10×2 rectangle centered on the line, all vertices red. -/
theorem line_quad (ops : FOps) (l : Line) (z : ℚ) (rot : Rotation)
    (width : ℚ) (color : Rgba)
    (hp : l.p1 ≠ l.p2) (hs : ops.sqrtf 100 = 10) :
    Shape.triangulate ops (Shape.Line l ⟨z⟩ rot ⟨width, color⟩) =
      some (lineQuadSpec ops l z rot width color) ∧
    Shape.triangulate ops (Shape.Line (Line.new 0 0 10 0) ⟨z⟩ Rotation.ZERO ⟨2, Rgba.RED⟩) =
      some [vertex 0 1 z 0 ⟨0, 0⟩ ⟨255, 0, 0, 255⟩,
            vertex 0 (-1) z 0 ⟨0, 0⟩ ⟨255, 0, 0, 255⟩,
            vertex 10 1 z 0 ⟨0, 0⟩ ⟨255, 0, 0, 255⟩,
            vertex 10 1 z 0 ⟨0, 0⟩ ⟨255, 0, 0, 255⟩,
            vertex 0 (-1) z 0 ⟨0, 0⟩ ⟨255, 0, 0, 255⟩,
            vertex 10 (-1) z 0 ⟨0, 0⟩ ⟨255, 0, 0, 255⟩] := by
  constructor
  · obtain ⟨a, ctr⟩ := rot
    rfl
  · have hv : Vector2.normalize ops ((Line.new 0 0 10 0).p2 - (Line.new 0 0 10 0).p1) =
        ⟨1, 0⟩ := by
      rw [Line.new, Vector2.sub_def, Vector2.normalize]
      rw [show ((10:ℚ) - 0) * (10 - 0) + (0 - 0) * (0 - 0) = 100 by norm_num, hs]
      norm_num
    have hred : Rgba8.ofRgba Rgba.RED = ⟨255, 0, 0, 255⟩ := by
      norm_num [Rgba8.ofRgba, Rgba.RED, Int.toNat]
    simp only [Rotation.ZERO, Shape.triangulate, hv, hred]
    norm_num [Line.new, vertex, Vertex.new]

theorem circle_length (ops : FOps) (pos : Point2) (radius : ℚ) (sides : ℕ) :
    (Shape.circle ops pos radius sides).length = sides + 1 := by
  rw [Shape.circle, List.length_map, List.length_range]

theorem length_flatMap_const {α β : Type} (l : List α) (f : α → List β) (k : ℕ)
    (h : ∀ a ∈ l, (f a).length = k) : (l.flatMap f).length = k * l.length := by
  induction l with
  | nil => simp
  | cons a t ih =>
    simp only [List.flatMap_cons, List.length_append, h a (List.mem_cons_self a t),
      ih fun x hx => h x (List.mem_cons_of_mem a hx), List.length_cons, Nat.mul_succ]
    omega

theorem length_flatMap_cons6 {α β : Type} (l : List α) (g1 g2 g3 g4 g5 g6 : α → β) :
    (l.flatMap fun a => [g1 a, g2 a, g3 a, g4 a, g5 a, g6 a]).length = 6 * l.length := by
  apply length_flatMap_const
  intro a _
  rfl

theorem getD_map_lt {α β : Type} (l : List α) (g : α → β) (i : ℕ) (d : β) (d' : α)
    (h : i < l.length) : (l.map g).getD i d = g (l.getD i d') := by
  rw [List.getD_eq_getElem _ _ (by simpa using h), List.getD_eq_getElem _ _ h,
    List.getElem_map]

theorem getLastD_eq_getD {α : Type} (l : List α) (d : α) :
    l.getLastD d = l.getD (l.length - 1) d := by
  rw [List.getLastD_eq_getLast?, List.getLast?_eq_getElem?, List.getD_eq_getElem?_getD]

theorem headD_eq_getD {α : Type} (l : List α) (d : α) :
    l.headD d = l.getD 0 d := by
  rw [List.headD_eq_head?, List.head?_eq_getElem?, List.getD_eq_getElem?_getD]

theorem length_flatMap_cons3 {α β : Type} (l : List α) (g1 g2 g3 : α → β) :
    (l.flatMap fun a => [g1 a, g2 a, g3 a]).length = 3 * l.length := by
  apply length_flatMap_const
  intro a _
  rfl

/-- Claim C4 (amended: shapes whose fill is Gradient fail instead, see C2):
a Rectangle with stroke width `w > 0` triangulates to the 24 frame vertices
— four segments bottom, left, right, top, each two triangles over shared
outer/inner corners with the inner rect inset by `w` on all four sides —
followed by exactly 6 fill vertices covering the inner rect if and only if
the fill is Solid. -/
theorem rect_stroke_frame (ops : FOps) (r : Rect) (z : ℚ) (rot : Rotation)
    (w : ℚ) (sc : Rgba) (fill : Fill)
    (hw : 0 < w) (hf : fill.isGradient = false) :
    Shape.triangulate ops (Shape.Rectangle r ⟨z⟩ rot ⟨w, sc⟩ fill) =
      some (rectFrameSpec r z rot w sc ++
        (match fill with
         | Fill.Solid c => rectFillSpec ⟨r.x1 + w, r.y1 + w, r.x2 - w, r.y2 - w⟩ z rot c
         | _ => [])) ∧
    (Shape.triangulate ops (Shape.Rectangle r ⟨z⟩ rot ⟨w, sc⟩ fill)).map List.length =
      some (24 + (match fill with | Fill.Solid _ => 6 | _ => 0)) := by
  obtain ⟨a, ctr⟩ := rot
  have hstroke : (⟨w, sc⟩ : Stroke) ≠ Stroke.NONE := by
    intro h
    rw [Stroke.NONE, Stroke.mk.injEq] at h
    exact absurd h.1 hw.ne'
  have h1 : Shape.triangulate ops (Shape.Rectangle r ⟨z⟩ ⟨a, ctr⟩ ⟨w, sc⟩ fill) =
      some (rectFrameSpec r z ⟨a, ctr⟩ w sc ++
        (match fill with
         | Fill.Solid c => rectFillSpec ⟨r.x1 + w, r.y1 + w, r.x2 - w, r.y2 - w⟩ z ⟨a, ctr⟩ c
         | _ => [])) := by
    cases fill with
    | Empty => simp [Shape.triangulate, hstroke, rectFrameSpec]
    | Solid c => simp [Shape.triangulate, hstroke, rectFrameSpec, rectFillSpec]
    | Gradient c1 c2 => simp [Fill.isGradient] at hf
  refine ⟨h1, ?_⟩
  rw [h1]
  cases fill with
  | Empty => simp [rectFrameSpec]
  | Solid c => simp [rectFrameSpec, rectFillSpec]
  | Gradient c1 c2 => simp [Fill.isGradient] at hf

/-- Claim C4 counterexample: a Rectangle with stroke width `1 > 0` but a
Gradient fill makes `triangulate` fail instead of emitting the 24 stroke
vertices the claim promises for every `w > 0` Rectangle. -/
theorem rect_stroke_frame_cex :
    (0 : ℚ) < 1 ∧
    Shape.triangulate exOps
      (Shape.Rectangle ⟨0, 0, 1, 1⟩ ⟨0⟩ Rotation.ZERO ⟨1, Rgba.RED⟩
        (Fill.Gradient Rgba.RED Rgba.RED)) = none := by
  constructor
  · norm_num
  · rw [Rotation.ZERO]
    rfl

/-- Claim C10 (amended: a Gradient fill makes triangulation fail outright,
so the frame/ring emission holds for every non-Gradient fill): stroke
emission is decided by structural equality with `Stroke::NONE`, not by width
alone — a width-0 stroke with a non-transparent color still emits the
24-vertex rectangle frame first, whatever non-Gradient fill follows, and
every frame vertex sits at an outer corner (the inner rect coincides with
the outer one, so the triangles have zero area); the same equality test
makes a width-0 colored stroke emit the full `6·sides`-vertex circle ring,
before the `3(sides+1)` fan vertices when the fill is Solid. -/
theorem stroke_sentinel_equality (ops : FOps) (r : Rect) (z : ℚ) (rot : Rotation)
    (sc : Rgba) (pos : Point2) (radius : ℚ) (sides : ℕ) (fill : Fill)
    (hc : sc ≠ Rgba.TRANSPARENT) (hf : fill.isGradient = false) :
    Shape.triangulate ops (Shape.Rectangle r ⟨z⟩ rot ⟨0, sc⟩ fill) =
      some (rectFrameSpec r z rot 0 sc ++
        (match fill with
         | Fill.Solid c => rectFillSpec ⟨r.x1 + 0, r.y1 + 0, r.x2 - 0, r.y2 - 0⟩ z rot c
         | _ => [])) ∧
    (∀ v ∈ rectFrameSpec r z rot 0 sc,
      (v.position.x = r.x1 ∨ v.position.x = r.x2) ∧
      (v.position.y = r.y1 ∨ v.position.y = r.y2)) ∧
    (Shape.triangulate ops (Shape.Circle pos ⟨z⟩ radius sides ⟨0, sc⟩ fill)).map
        List.length =
      some (6 * sides +
        (match fill with | Fill.Solid _ => 3 * (sides + 1) | _ => 0)) := by
  have hstroke : (⟨0, sc⟩ : Stroke) ≠ Stroke.NONE := by
    intro h
    rw [Stroke.NONE, Stroke.mk.injEq] at h
    exact absurd h.2 hc
  obtain ⟨a, ctr⟩ := rot
  refine ⟨?_, ?_, ?_⟩
  · cases fill with
    | Empty => simp [Shape.triangulate, hstroke, rectFrameSpec]
    | Solid c => simp [Shape.triangulate, hstroke, rectFrameSpec, rectFillSpec]
    | Gradient c1 c2 => simp [Fill.isGradient] at hf
  · simp [rectFrameSpec, List.forall_mem_cons, vertex, Vertex.new]
  · cases fill with
    | Empty =>
      simp only [Shape.triangulate, ne_eq, hstroke, not_false_eq_true, if_true,
        Option.map_some']
      rw [length_flatMap_cons6]
      simp [circle_length]
    | Solid c =>
      simp only [Shape.triangulate, ne_eq, hstroke, not_false_eq_true, if_true,
        Option.map_some', List.length_append]
      rw [length_flatMap_cons6, length_flatMap_cons3]
      simp only [Option.some.injEq, List.length_range, List.length_cons,
        List.length_nil, circle_length]
      omega
    | Gradient c1 c2 => simp [Fill.isGradient] at hf

/-- Claim C10 counterexample: a Rectangle whose stroke has width 0 and the
non-transparent color red but whose fill is a Gradient makes `triangulate`
fail outright, emitting none of the 24 frame vertices the frozen claim
promises for every such Rectangle. -/
theorem stroke_sentinel_equality_cex :
    Rgba.RED ≠ Rgba.TRANSPARENT ∧
    Shape.triangulate exOps (Shape.Rectangle ⟨0, 0, 5, 3⟩ ⟨7⟩ ⟨3, ⟨1, 2⟩⟩ ⟨0, Rgba.RED⟩
      (Fill.Gradient Rgba.RED Rgba.RED)) = none :=
  ⟨by decide, by decide⟩

/-- Claim C6: the triangulator never rotates geometry — every output vertex of
a Line or Rectangle carries exactly the shape's rotation angle and center in
its `angle`/`center` fields, while every output vertex of a Circle carries
angle `0` and center `(0,0)` regardless of the shape's other parameters. -/
theorem rotation_stamped (ops : FOps) (s : Shape) (vs : List Vertex)
    (h : Shape.triangulate ops s = some vs) :
    ∀ v ∈ vs, v.angle = (Shape.rotStamp s).1 ∧
      v.center = ⟨(Shape.rotStamp s).2.x, (Shape.rotStamp s).2.y⟩ := by
  cases s with
  | Line l zd rot stroke =>
    obtain ⟨z⟩ := zd; obtain ⟨a, ctr⟩ := rot; obtain ⟨w, c⟩ := stroke
    simp only [Shape.triangulate, Option.some.injEq] at h
    subst h
    simp [Shape.rotStamp, vertex, Vertex.new, List.forall_mem_cons]
  | Rectangle r zd rot stroke fill =>
    obtain ⟨z⟩ := zd; obtain ⟨a, ctr⟩ := rot
    cases fill with
    | Gradient c1 c2 => rw [triangulate_rect_gradient] at h; cases h
    | Empty =>
      simp only [Shape.triangulate, Option.some.injEq] at h
      subst h
      simp only [Shape.rotStamp]
      split
      · simp [vertex, Vertex.new, List.forall_mem_cons]
      · simp
    | Solid c =>
      simp only [Shape.triangulate, Option.some.injEq] at h
      subst h
      simp only [Shape.rotStamp]
      rw [List.forall_mem_append]
      constructor
      · split
        · simp [vertex, Vertex.new, List.forall_mem_cons]
        · simp
      · simp [vertex, Vertex.new, List.forall_mem_cons]
  | Circle pos zd radius sides stroke fill =>
    obtain ⟨z⟩ := zd
    cases fill with
    | Gradient c1 c2 => rw [triangulate_circle_gradient] at h; cases h
    | Empty =>
      simp only [Shape.triangulate, Option.some.injEq] at h
      subst h
      simp only [Shape.rotStamp]
      split
      · intro v hv
        simp only [List.mem_flatMap] at hv
        obtain ⟨i, -, hv⟩ := hv
        simp only [List.mem_cons, List.not_mem_nil, or_false] at hv
        rcases hv with rfl | rfl | rfl | rfl | rfl | rfl <;> exact ⟨rfl, rfl⟩
      · simp
    | Solid c =>
      simp only [Shape.triangulate, Option.some.injEq] at h
      subst h
      simp only [Shape.rotStamp]
      have hiv : ∀ x ∈ (Shape.circle ops pos (radius - stroke.width) sides).map
          (fun p => Vertex.new p.x p.y z 0 ⟨0, 0⟩ (Rgba8.ofRgba c)),
          x.angle = (0 : ℚ) ∧ x.center = (⟨0, 0⟩ : Vector2) := by
        intro x hx
        rw [List.mem_map] at hx
        obtain ⟨p, -, rfl⟩ := hx
        exact ⟨rfl, rfl⟩
      rw [List.forall_mem_append, List.forall_mem_append]
      refine ⟨⟨?_, ?_⟩, ?_⟩
      · split
        · intro v hv
          simp only [List.mem_flatMap] at hv
          obtain ⟨i, -, hv⟩ := hv
          simp only [List.mem_cons, List.not_mem_nil, or_false] at hv
          rcases hv with rfl | rfl | rfl | rfl | rfl | rfl <;> exact ⟨rfl, rfl⟩
        · simp
      · intro v hv
        simp only [List.mem_flatMap] at hv
        obtain ⟨i, -, hv⟩ := hv
        simp only [List.mem_cons, List.not_mem_nil, or_false] at hv
        rcases hv with rfl | rfl | rfl
        · exact ⟨rfl, rfl⟩
        · exact getD_cases (fun (x : Vertex) => x.angle = (0 : ℚ) ∧ x.center = (⟨0, 0⟩ : Vector2))
            _ _ _ hiv ⟨rfl, rfl⟩
        · exact getD_cases (fun (x : Vertex) => x.angle = (0 : ℚ) ∧ x.center = (⟨0, 0⟩ : Vector2))
            _ _ _ hiv ⟨rfl, rfl⟩
      · intro v hv
        simp only [List.mem_cons, List.not_mem_nil, or_false] at hv
        rcases hv with rfl | rfl | rfl
        · exact ⟨rfl, rfl⟩
        · exact getLastD_cases (fun (x : Vertex) => x.angle = (0 : ℚ) ∧ x.center = (⟨0, 0⟩ : Vector2))
            _ _ hiv ⟨rfl, rfl⟩
        · exact headD_cases (fun (x : Vertex) => x.angle = (0 : ℚ) ∧ x.center = (⟨0, 0⟩ : Vector2))
            _ _ hiv ⟨rfl, rfl⟩


/-- Claim C1 (amended: the source emits the `n` fan triangles *plus one
closing triangle* `(center, Pₙ, P₀)`, so the vertex count is `3(n+1)`, not
`3n` — 15 vertices, not 12, in the sides-4 scenario): a Circle with
`sides = n ≥ 3`, `Stroke::NONE` and `Fill::Solid(c)` triangulates to the fan
of `n+1` triangles, each referencing the circle's center point and two
adjacent inner-ring boundary points, closing from the last boundary point
back to the first; every vertex is colored `c` and carries the shape's
declared depth `z`. -/
theorem circle_fill_fan (ops : FOps) (pos : Point2) (z radius : ℚ) (n : ℕ)
    (c : Rgba) (hn : 3 ≤ n) :
    Shape.triangulate ops (Shape.Circle pos ⟨z⟩ radius n Stroke.NONE (Fill.Solid c)) =
      some (circleFanSpec ops pos z radius n c) ∧
    (circleFanSpec ops pos z radius n c).length = 3 * (n + 1) ∧
    ∀ v ∈ circleFanSpec ops pos z radius n c,
      v.color = Rgba8.ofRgba c ∧ v.position.z = z := by
  refine ⟨?_, ?_, ?_⟩
  case refine_2 =>
    simp only [circleFanSpec, List.length_append, length_flatMap_cons3,
      List.length_range, List.length_cons, List.length_nil]
    omega
  case refine_3 =>
    intro v hv
    simp only [circleFanSpec, List.mem_append, List.mem_flatMap, List.mem_cons,
      List.not_mem_nil, or_false, List.mem_range] at hv
    rcases hv with ⟨i, -, rfl | rfl | rfl⟩ | (rfl | rfl | rfl) <;> exact ⟨rfl, rfl⟩
  have hw : Stroke.NONE.width = 0 := rfl
  simp only [Shape.triangulate, circleFanSpec, hw, sub_zero]
  split
  · rename_i hfalse; exact absurd rfl hfalse
  · rw [List.nil_append]
    congr 1
    congr 1
    · apply flatMap_congr
      intro i hi
      rw [List.mem_range] at hi
      rw [getD_map_lt _ _ i _ ⟨0, 0⟩ (by rw [circle_length]; omega),
        getD_map_lt _ _ (i + 1) _ ⟨0, 0⟩ (by rw [circle_length]; omega)]
      rfl
    · rw [getLastD_eq_getD, headD_eq_getD, List.length_map, circle_length,
        Nat.add_sub_cancel,
        getD_map_lt _ _ n _ ⟨0, 0⟩ (by rw [circle_length]; omega),
        getD_map_lt _ _ 0 _ ⟨0, 0⟩ (by rw [circle_length]; omega)]
      rfl

/-- Claim C1 counterexample: the concrete sides-4 scenario emits 15 vertices
(5 triangles), not the 12 vertices (4 triangles) the claim states. -/
theorem circle_fill_fan_cex :
    (Shape.triangulate exOps (Shape.Circle ⟨0, 0⟩ ⟨7⟩ 1 4 Stroke.NONE
      (Fill.Solid Rgba.WHITE))).map List.length = some 15 ∧ (15 : ℕ) ≠ 12 :=
  ⟨by decide, by decide⟩

/-- Claim C1 witness at the concrete sides-4 white unit circle of depth 7. -/
theorem circle_fill_fan_witness :
    3 ≤ 4 ∧
    (Shape.triangulate exOps (Shape.Circle ⟨0, 0⟩ ⟨7⟩ 1 4 Stroke.NONE (Fill.Solid Rgba.WHITE)) =
      some (circleFanSpec exOps ⟨0, 0⟩ 7 1 4 Rgba.WHITE) ∧
    (circleFanSpec exOps ⟨0, 0⟩ 7 1 4 Rgba.WHITE).length = 3 * (4 + 1) ∧
    ∀ v ∈ circleFanSpec exOps ⟨0, 0⟩ 7 1 4 Rgba.WHITE,
      v.color = Rgba8.ofRgba Rgba.WHITE ∧ v.position.z = 7) :=
  ⟨by decide, circle_fill_fan exOps ⟨0, 0⟩ 7 1 4 Rgba.WHITE (by decide)⟩

/-- Claim C3 witness at the concrete red width-2 line from (0,0) to (10,0). -/
theorem line_quad_witness :
    (Line.new 0 0 10 0).p1 ≠ (Line.new 0 0 10 0).p2 ∧ exOps.sqrtf 100 = 10 ∧
    (Shape.triangulate exOps (Shape.Line (Line.new 0 0 10 0) ⟨7⟩ ⟨3, ⟨1, 2⟩⟩ ⟨2, Rgba.RED⟩) =
      some (lineQuadSpec exOps (Line.new 0 0 10 0) 7 ⟨3, ⟨1, 2⟩⟩ 2 Rgba.RED) ∧
    Shape.triangulate exOps (Shape.Line (Line.new 0 0 10 0) ⟨7⟩ Rotation.ZERO ⟨2, Rgba.RED⟩) =
      some [vertex 0 1 7 0 ⟨0, 0⟩ ⟨255, 0, 0, 255⟩,
            vertex 0 (-1) 7 0 ⟨0, 0⟩ ⟨255, 0, 0, 255⟩,
            vertex 10 1 7 0 ⟨0, 0⟩ ⟨255, 0, 0, 255⟩,
            vertex 10 1 7 0 ⟨0, 0⟩ ⟨255, 0, 0, 255⟩,
            vertex 0 (-1) 7 0 ⟨0, 0⟩ ⟨255, 0, 0, 255⟩,
            vertex 10 (-1) 7 0 ⟨0, 0⟩ ⟨255, 0, 0, 255⟩]) :=
  ⟨by decide, by decide,
    line_quad exOps (Line.new 0 0 10 0) 7 ⟨3, ⟨1, 2⟩⟩ 2 Rgba.RED (by decide) (by decide)⟩

/-- Claim C4 witness at a concrete stroked, solid-filled rectangle. -/
theorem rect_stroke_frame_witness :
    (0 : ℚ) < 1 ∧ (Fill.Solid Rgba.WHITE).isGradient = false ∧
    (Shape.triangulate exOps (Shape.Rectangle ⟨0, 0, 5, 3⟩ ⟨7⟩ ⟨3, ⟨1, 2⟩⟩ ⟨1, Rgba.RED⟩
        (Fill.Solid Rgba.WHITE)) =
      some (rectFrameSpec ⟨0, 0, 5, 3⟩ 7 ⟨3, ⟨1, 2⟩⟩ 1 Rgba.RED ++
        rectFillSpec ⟨0 + 1, 0 + 1, 5 - 1, 3 - 1⟩ 7 ⟨3, ⟨1, 2⟩⟩ Rgba.WHITE) ∧
    (Shape.triangulate exOps (Shape.Rectangle ⟨0, 0, 5, 3⟩ ⟨7⟩ ⟨3, ⟨1, 2⟩⟩ ⟨1, Rgba.RED⟩
        (Fill.Solid Rgba.WHITE))).map List.length = some (24 + 6)) :=
  ⟨by decide, by decide,
    rect_stroke_frame exOps ⟨0, 0, 5, 3⟩ 7 ⟨3, ⟨1, 2⟩⟩ 1 Rgba.RED (Fill.Solid Rgba.WHITE)
      (by decide) (by decide)⟩

/-- Claim C6 witness at the concrete rotated rectangle `rotEx`. -/
theorem rotation_stamped_witness :
    Shape.triangulate exOps rotEx = some rotExVerts ∧
    ∀ v ∈ rotExVerts, v.angle = (Shape.rotStamp rotEx).1 ∧
      v.center = ⟨(Shape.rotStamp rotEx).2.x, (Shape.rotStamp rotEx).2.y⟩ := by
  have h : Shape.triangulate exOps rotEx = some rotExVerts := by
    simp [rotEx, rotExVerts, Shape.triangulate, Stroke.NONE]
  exact ⟨h, rotation_stamped exOps rotEx rotExVerts h⟩

/-- Claim C10 witness at a concrete width-0 red stroke with a solid white
fill, on a rectangle and a sides-4 circle. -/
theorem stroke_sentinel_equality_witness :
    Rgba.RED ≠ Rgba.TRANSPARENT ∧ (Fill.Solid Rgba.WHITE).isGradient = false ∧
    (Shape.triangulate exOps (Shape.Rectangle ⟨0, 0, 5, 3⟩ ⟨7⟩ ⟨3, ⟨1, 2⟩⟩ ⟨0, Rgba.RED⟩
        (Fill.Solid Rgba.WHITE)) =
      some (rectFrameSpec ⟨0, 0, 5, 3⟩ 7 ⟨3, ⟨1, 2⟩⟩ 0 Rgba.RED ++
        rectFillSpec ⟨0 + 0, 0 + 0, 5 - 0, 3 - 0⟩ 7 ⟨3, ⟨1, 2⟩⟩ Rgba.WHITE) ∧
    (∀ v ∈ rectFrameSpec ⟨0, 0, 5, 3⟩ 7 ⟨3, ⟨1, 2⟩⟩ 0 Rgba.RED,
      (v.position.x = (0 : ℚ) ∨ v.position.x = 5) ∧
      (v.position.y = (0 : ℚ) ∨ v.position.y = 3)) ∧
    (Shape.triangulate exOps (Shape.Circle ⟨0, 0⟩ ⟨7⟩ 1 4 ⟨0, Rgba.RED⟩
        (Fill.Solid Rgba.WHITE))).map List.length = some (6 * 4 + 3 * (4 + 1))) :=
  ⟨by decide, by decide,
    stroke_sentinel_equality exOps ⟨0, 0, 5, 3⟩ 7 ⟨3, ⟨1, 2⟩⟩ Rgba.RED ⟨0, 0⟩ 1 4
      (Fill.Solid Rgba.WHITE) (by decide) (by decide)⟩

end Rgx
